import Mathlib

/-!
Verification of the Bittensor async subtensor core against its specification.

The Python sources embedded here are `bittensor/core/async_subtensor.py` and
`bittensor/utils/balance.py`.  The external `async_substrate_interface`
dependency (the WebSocket/SCALE transport, `self.substrate` in the source) is
modelled as a record of oracle functions: each field gives the value the
transport would return for the corresponding RPC at a given block reference.
Python dynamic values flowing through the chain-query paths are modelled by
the `PyValue` type; exceptions are modelled with `Except String`.
-/

namespace Bittensor

/-- A Python runtime value as it appears on the chain-query paths of
`async_subtensor.py`: `None`, booleans, ints, strings, and lists of ints
(the shape of the `LastUpdate` storage vector).  Decoded SCALE objects are
modelled by their plain `.value` payload, matching the
`getattr(result, "value", result)` unwrapping in the source. -/
inductive PyValue where
  | none
  | bool (b : Bool)
  | int (n : Int)
  | str (s : String)
  | intList (xs : List Int)
deriving Repr, DecidableEq

/-- Python truthiness (`bool(x)`) for the values of `PyValue`. -/
def PyValue.truthy : PyValue → Bool
  | .none => false
  | .bool b => b
  | .int n => n != 0
  | .str s => s != ""
  | .intList xs => !xs.isEmpty

/-- Python subscripting `v[i]` on the modelled values: list indexing with
negative-index wraparound; `IndexError`/`TypeError` are modelled as errors. -/
def PyValue.getItem (v : PyValue) (i : Int) : Except String PyValue :=
  match v with
  | .intList xs =>
      let j : Int := if i < 0 then (xs.length : Int) + i else i
      if h : 0 ≤ j ∧ j < (xs.length : Int) then
        .ok (.int (xs.get ⟨j.toNat, by omega⟩))
      else
        .error "IndexError: list index out of range"
  | _ => .error "TypeError: value is not subscriptable"

/-- Python `int(x)` on the modelled values.  The chain paths embedded here
only ever convert ints and bools; other shapes are modelled as errors. -/
def PyValue.toInt : PyValue → Except String Int
  | .int n => .ok n
  | .bool b => .ok (if b then 1 else 0)
  | _ => .error "TypeError: cannot convert to int"

/-- Lift a Python `Optional[str]` into a `PyValue`. -/
def pyOfOptStr : Option String → PyValue
  | Option.none => .none
  | Option.some s => .str s

/-- Modelled from the spec: `settings.TAO_SYMBOL` lives in
`bittensor/core/settings.py`, which is not under src.  Spec §6 (Units):
"Display formatter emits `τX.XXXXXXXXX`". -/
def TAO_SYMBOL : String := "τ"

/-- Modelled from the spec: `settings.RAO_SYMBOL` lives in
`bittensor/core/settings.py`, which is not under src.  The spec names the
base unit "rao" (§3 Balance); the concrete glyph is display-only and never
affects the `rao` field. -/
def RAO_SYMBOL : String := "ρ"

/-- Modelled from the spec: `settings.units` (the per-subnet unit symbol
table) lives in `bittensor/core/settings.py`, which is not under src.  The
spec only specifies the `tao` symbol `τ` (§6 Units), so the model carries
the one specified entry; every embedded call path uses the default
`netuid = 0`, which reads only index 0. -/
def units : List String := [TAO_SYMBOL]

/-- Loop body of `Balance.get_unit` (balance.py:262-267):
`while netuid > 0: result = units[netuid % base] + result; netuid //= base`.
The first argument is fuel bounding the iteration count (the Python loop
terminates whenever `base ≥ 2`, halving `netuid` each round, so `netuid`
rounds of fuel suffice). -/
def getUnitLoop : Nat → Nat → String → String
  | 0, _, result => result
  | _ + 1, 0, result => result
  | fuel + 1, netuid, result =>
      getUnitLoop fuel (netuid / units.length)
        ((units.getD (netuid % units.length) "") ++ result)

/-- Python balance of the wallet stored as rao, with the two display-unit
strings (balance.py:6-22).  Only the fields are modelled; `tao` is the
derived property `rao / 10^9`. -/
structure Balance where
  rao : Int
  unit : String
  rao_unit : String
deriving Repr, DecidableEq

/-- The `int` branch of `Balance.__init__` (balance.py:32-33): the argument
is taken to be rao; the unit strings keep their class defaults. -/
def Balance.init (balance : Int) : Balance :=
  ⟨balance, TAO_SYMBOL, RAO_SYMBOL⟩

/-- Python `int(q)` on an exact rational: truncation toward zero.  `Rat` is
normalized with positive denominator, and Lean's `Int` division truncates
toward zero, so `num / den` is exactly Python `int()`. -/
def pyInt (q : Rat) : Int := q.num / q.den

/-- The `float` branch of `Balance.__init__` (balance.py:34-36):
`self.rao = int(balance * pow(10, 9))`, the argument taken to be tao.  The
Python float is modelled as an exact rational; at every input exercised in
this development (1.5) the IEEE-double computation is exact, so the models
agree. -/
def Balance.initFloat (balance : Rat) : Balance :=
  Balance.init (pyInt (balance * (10 : Rat) ^ 9))

/-- `Balance.get_unit` (balance.py:256-267). -/
def Balance.get_unit (netuid : Nat) : String :=
  let base := units.length
  if netuid < base then units.getD netuid ""
  else getUnitLoop netuid netuid ""

/-- `Balance.set_unit` (balance.py:269-272): overwrites both unit strings,
leaving `rao` untouched, and returns the balance. -/
def Balance.set_unit (b : Balance) (netuid : Nat) : Balance :=
  { b with unit := Balance.get_unit netuid, rao_unit := Balance.get_unit netuid }

/-- `Balance.from_rao` (balance.py:242-254): `Balance(amount).set_unit(netuid)`
with `amount` an int, so the `int` branch of `__init__` runs. -/
def Balance.from_rao (amount : Int) (netuid : Nat := 0) : Balance :=
  (Balance.init amount).set_unit netuid

/-- `Balance.from_tao` (balance.py:227-240): `rao = int(amount * pow(10, 9))`
then `Balance(rao).set_unit(netuid)` (the `int` branch of `__init__`). -/
def Balance.from_tao (amount : Rat) (netuid : Nat := 0) : Balance :=
  (Balance.init (pyInt (amount * (10 : Rat) ^ 9))).set_unit netuid

/-- Response object of `substrate.submit_extrinsic`, restricted to the two
fields `sign_and_send_extrinsic` reads: `is_success` and `error_message`. -/
structure SubmitResponse where
  is_success : Bool
  error_message : String
deriving Repr, DecidableEq

/-- The transfer `Call` composed by `get_transfer_fee` via
`substrate.compose_call`; `value` is the string `str(value.rao)` the source
puts into `call_params`. -/
structure TransferCall where
  call_module : String
  call_function : String
  dest : String
  value : String
deriving Repr, DecidableEq

/-- Oracle model of the external `async_substrate_interface` transport
(`self.substrate` in `async_subtensor.py`).  Each field returns the value
the corresponding transport method would produce; the block-reference
arguments mirror the `block_hash` / `reuse_block_hash` arguments threaded
through by the source. -/
structure Substrate where
  /-- `substrate.last_block_hash`. -/
  last_block_hash : Option String
  /-- `substrate.get_block_hash(block_id)`.  The argument is a `PyValue`
  because `get_hyperparameter` passes an already-resolved hash string into
  the `block` slot of `subnet_exists` (positional call, line 442). -/
  block_hash_of : PyValue → String
  /-- `substrate.get_chain_head()`. -/
  chain_head : String
  /-- `substrate.get_block_number(None)`. -/
  block_number : Int
  /-- `substrate.query(module, storage_function, params, block_hash,
  reuse_block_hash)`, already unwrapped to its `.value`. -/
  query : String → String → List PyValue → PyValue → Bool → PyValue
  /-- The `data.free` field of the `System.Account` entry for an address at
  a block hash, `none` when the storage query returns null (absent account).
  Used by `get_balances` through `create_storage_key` + `query_multi`. -/
  account_free : String → PyValue → Option Int
  /-- `substrate.query_map("SubtensorModule", "CRV3WeightCommits",
  [netuid], ...).records`: a list of `(map key, commits)` entries, each
  commit a byte vector. -/
  crv3_records : Int → PyValue → Bool → List (String × List (List Nat))
  /-- `substrate.get_payment_info(call, keypair)["partialFee"]`; `none`
  models the RPC raising an exception. -/
  payment_info : TransferCall → Option Int
  /-- `substrate.submit_extrinsic(extrinsic, wait_for_inclusion,
  wait_for_finalization)`; `.error` models `SubstrateRequestException`. -/
  submit_extrinsic : Bool → Bool → Except String SubmitResponse

namespace AsyncSubtensor

/-- `AsyncSubtensor.get_block_hash` (async_subtensor.py:1029-1047):
`substrate.get_block_hash(block)` when `block` is truthy, else
`substrate.get_chain_head()`. -/
def get_block_hash (s : Substrate) (block : PyValue := .none) : String :=
  if block.truthy then s.block_hash_of block else s.chain_head

/-- `AsyncSubtensor.get_current_block` (async_subtensor.py:1011-1023):
`substrate.get_block_number(None)`. -/
def get_current_block (s : Substrate) : Int :=
  s.block_number

/-- `AsyncSubtensor.determine_block_hash` (async_subtensor.py:379-396).
Raises `ValueError` when more than one of `block`, `block_hash`,
`reuse_block` is truthy; then `block_hash` short-circuits, `block` resolves
through `get_block_hash`, and otherwise `None` is returned. -/
def determine_block_hash (s : Substrate) (block : PyValue)
    (block_hash : PyValue := .none) (reuse_block : Bool := false) :
    Except String PyValue :=
  if (cond block.truthy 1 0) + (cond block_hash.truthy 1 0)
      + (cond reuse_block 1 0) > 1 then
    .error "Only one of `block`, `block_hash`, or `reuse_block` can be specified."
  else if block_hash.truthy then
    .ok block_hash
  else if block.truthy then
    .ok (.str (get_block_hash s block))
  else
    .ok .none

/-- `AsyncSubtensor.subnet_exists` (async_subtensor.py:2440-2470): queries
`SubtensorModule.NetworksAdded[netuid]` and returns the raw result (the
source returns the ScaleType itself; its callers test it for truthiness). -/
def subnet_exists (s : Substrate) (netuid : PyValue) (block : PyValue := .none)
    (block_hash : PyValue := .none) (reuse_block : Bool := false) :
    Except String PyValue := do
  let bh ← determine_block_hash s block block_hash reuse_block
  .ok (s.query "SubtensorModule" "NetworksAdded" [netuid] bh reuse_block)

/-- `AsyncSubtensor.get_hyperparameter` (async_subtensor.py:418-454).
Returns `None` when the subnet does not exist, else the queried storage
value.  Note the source calls `subnet_exists(netuid, block_hash, ...)`
positionally, so the resolved hash lands in `subnet_exists`'s `block`
parameter; the model reproduces that. -/
def get_hyperparameter (s : Substrate) (param_name : String) (netuid : PyValue)
    (block : PyValue := .none) (block_hash : PyValue := .none)
    (reuse_block : Bool := false) : Except String PyValue := do
  let bh ← determine_block_hash s block block_hash reuse_block
  let se ← subnet_exists s netuid bh .none reuse_block
  if !se.truthy then
    .ok .none
  else
    .ok (s.query "SubtensorModule" param_name [netuid] bh reuse_block)

/-- `AsyncSubtensor.blocks_since_last_update` (async_subtensor.py:747-759):
`None if call is None else await self.get_current_block() - int(call[uid])`
where `call = get_hyperparameter("LastUpdate", netuid)`. -/
def blocks_since_last_update (s : Substrate) (netuid : Int) (uid : Int) :
    Except String (Option Int) := do
  let call ← get_hyperparameter s "LastUpdate" (.int netuid)
  match call with
  | .none => .ok Option.none
  | c => do
      let item ← c.getItem uid
      let v ← item.toInt
      .ok (Option.some (get_current_block s - v))

/-- `AsyncSubtensor.weights_rate_limit` (async_subtensor.py:2591-2618):
`None if call is None else int(call)` for the `WeightsSetRateLimit`
hyperparameter. -/
def weights_rate_limit (s : Substrate) (netuid : Int)
    (block : PyValue := .none) (block_hash : PyValue := .none)
    (reuse_block : Bool := false) : Except String (Option Int) := do
  let bh ← determine_block_hash s block block_hash reuse_block
  let call ← get_hyperparameter s "WeightsSetRateLimit" (.int netuid)
      .none bh reuse_block
  match call with
  | .none => .ok Option.none
  | c => do
      let v ← c.toInt
      .ok (Option.some v)

/-- `AsyncSubtensor.commit_reveal_enabled` (async_subtensor.py:817-845):
resolves the block hash, reads the `CommitRevealWeightsEnabled`
hyperparameter, and returns `True if call is True else False`.  The `is`
identity test is modelled by equality with the Python `True` object. -/
def commit_reveal_enabled (s : Substrate) (netuid : Int)
    (block : PyValue := .none) (block_hash : PyValue := .none)
    (reuse_block : Bool := false) : Except String Bool := do
  let bh ← determine_block_hash s block block_hash reuse_block
  let call ← get_hyperparameter s "CommitRevealWeightsEnabled" (.int netuid)
      .none bh reuse_block
  .ok (call == .bool true)

/-- Python `dict.update({k: v})` on an insertion-ordered association list:
overwrite the value in place when the key is present, else append. -/
def dictUpsert (d : List (String × Balance)) (k : String) (v : Balance) :
    List (String × Balance) :=
  if d.any (fun p => p.1 == k) then
    d.map (fun p => if p.1 == k then (k, v) else p)
  else
    d ++ [(k, v)]

/-- `AsyncSubtensor.get_balances` (async_subtensor.py:971-1009).  Resolves
the block hash (`last_block_hash` when reusing, chain head when no hash is
given), issues one `query_multi` over the `System.Account` storage keys,
and builds the result dict with `value = item[1] or {"data": {"free": 0}}`
so that an absent account entry contributes `Balance(0)`. -/
def get_balances (s : Substrate) (addresses : List String)
    (block : PyValue := .none) (block_hash : PyValue := .none)
    (reuse_block : Bool := false) :
    Except String (List (String × Balance)) := do
  let bh : PyValue ←
    if reuse_block then
      pure (pyOfOptStr s.last_block_hash)
    else if !block_hash.truthy then
      pure (.str (get_block_hash s))
    else
      determine_block_hash s block block_hash reuse_block
  let batch_call := addresses.map (fun a => (a, s.account_free a bh))
  .ok (batch_call.foldl
    (fun results item =>
      dictUpsert results item.1 (Balance.init (item.2.getD 0)))
    [])

/-- `AsyncSubtensor.get_balance` (async_subtensor.py:946-969): resolves the
hash, delegates to `get_balances` for the single address, and returns
`next(iter(balances.values()))` (a `StopIteration` on an empty dict is
modelled as an error). -/
def get_balance (s : Substrate) (address : String)
    (block : PyValue := .none) (block_hash : PyValue := .none)
    (reuse_block : Bool := false) : Except String Balance := do
  let bh ← determine_block_hash s block block_hash reuse_block
  let balances ← get_balances s [address] .none bh reuse_block
  match balances with
  | [] => .error "StopIteration"
  | b :: _ => .ok b.2

/-- The `value` argument of `get_transfer_fee`: `Union[Balance, float, int]`
in the source; `other` models any further Python type, which falls through
to the fallback branch. -/
inductive TransferValue where
  | balance (b : Balance)
  | float (q : Rat)
  | int (n : Int)
  | other (s : String)
deriving Repr, DecidableEq

/-- `AsyncSubtensor.get_transfer_fee` (async_subtensor.py:1836-1883).
Floats are converted with `Balance.from_tao`, ints with `Balance.from_rao`;
a `Balances.transfer_allow_death` call is composed with
`value = str(value.rao)`; on `get_payment_info` failure the fallback
`partialFee = int(2e7)` is used.  The second component instruments the
composed call (`none` when the non-Balance fallback branch ran and no call
was composed). -/
def get_transfer_fee (s : Substrate) (dest : String) (value : TransferValue) :
    Balance × Option TransferCall :=
  let converted : Option Balance :=
    match value with
    | .float q => Option.some (Balance.from_tao q)
    | .int n => Option.some (Balance.from_rao n)
    | .balance b => Option.some b
    | .other _ => Option.none
  match converted with
  | Option.some v =>
      let call : TransferCall :=
        ⟨"Balances", "transfer_allow_death", dest, toString v.rao⟩
      let partialFee : Int :=
        match s.payment_info call with
        | Option.some pf => pf
        | Option.none => 20000000
      (Balance.from_rao partialFee, Option.some call)
  | Option.none =>
      (Balance.from_rao 20000000, Option.none)

end AsyncSubtensor

/-- Modelled from the spec: `WeightCommitInfo` and its decoder
`from_vec_u8` live in `bittensor/core/chain_data/weight_commit_info.py`,
which is not under src (only the package `__init__` importing it is).
Spec §3 treats such records as "opaque SCALE-encoded records ... created by
decode, never mutated", so the decoded record is modelled as carrying its
commit bytes. -/
structure WeightCommitInfo where
  raw : List Nat
deriving Repr, DecidableEq

/-- Modelled from the spec: the decode step for one commit byte vector
(see `WeightCommitInfo`). -/
def WeightCommitInfo.from_vec_u8 (b : List Nat) : WeightCommitInfo := ⟨b⟩

/-- Modelled from the spec: `format_error_message` lives in
`bittensor/utils/__init__.py`, which is not under src.  Spec §7 only
requires that extrinsic failures surface as `(false, message)`, so the
formatter is modelled as passing the message through. -/
def format_error_message (e : String) : String := e

namespace AsyncSubtensor

/-- `AsyncSubtensor.get_current_weight_commit_info`
(async_subtensor.py:1118-1148): queries the `CRV3WeightCommits` map and
decodes `result.records[0][1] if result.records else []` — only the first
map entry's commits; all further entries are discarded. -/
def get_current_weight_commit_info (s : Substrate) (netuid : Int)
    (block : PyValue := .none) (block_hash : PyValue := .none)
    (reuse_block : Bool := false) : Except String (List WeightCommitInfo) := do
  let bh ← determine_block_hash s block block_hash reuse_block
  let result := s.crv3_records netuid bh reuse_block
  let commits :=
    match result with
    | [] => []
    | r :: _ => r.2
  .ok (commits.map WeightCommitInfo.from_vec_u8)

/-- `AsyncSubtensor.sign_and_send_extrinsic` (async_subtensor.py:2621-2665).
The `sign_with` validation raises `AttributeError` before the extrinsic is
created or submitted.  The second component instruments the substrate
operations performed, in order, so that "before any I/O" is the statement
that the log is empty.  (The source message quotes the key names; the
quotes are elided here.) -/
def sign_and_send_extrinsic (s : Substrate) (sign_with : String := "coldkey")
    (wait_for_inclusion : Bool := true) (wait_for_finalization : Bool := false) :
    Except String (Bool × String) × List String :=
  if sign_with ∉ ["coldkey", "hotkey", "coldkeypub"] then
    (.error ("AttributeError: sign_with must be either coldkey, hotkey or coldkeypub, not "
        ++ sign_with), [])
  else
    let log := ["create_signed_extrinsic", "submit_extrinsic"]
    match s.submit_extrinsic wait_for_inclusion wait_for_finalization with
    | .error e => (.ok (false, format_error_message e), log)
    | .ok response =>
        if !wait_for_finalization && !wait_for_inclusion then
          (.ok (true, ""), log)
        else if response.is_success then
          (.ok (true, ""), log)
        else
          (.ok (false, format_error_message response.error_message), log)

/-- Per-attempt chain observations of the `set_weights` retry loops:
`bsl k` is the value of `await self.blocks_since_last_update(netuid, uid)`
and `wrl k` the value of `await self.weights_rate_limit(netuid)` observed
at the loop check with `retries = k` (the chain advances between
attempts, so the observations are indexed by the retry counter). -/
structure WeightsCallEnv where
  bsl : Nat → Int
  wrl : Nat → Int

/-- The `while` loop of `AsyncSubtensor.commit_weights`
(async_subtensor.py:2815-2832) and, identically, of `reveal_weights`
(async_subtensor.py:2926-2944): `while retries < max_retries`, attempt,
`break` on success, exception caught and logged, `finally: retries += 1`.
`att k` is the outcome of the extrinsic call at retry `k` (`none` models
an exception).  Returns the source's `(success, message)` paired with the
number of attempts performed. -/
def weights_retry_loop (att : Nat → Option (Bool × String))
    (max_retries retries : Nat) (success : Bool) (message : String) :
    (Bool × String) × Nat :=
  if _h : retries < max_retries then
    match att retries with
    | Option.some (s, m) =>
        if s then ((s, m), retries + 1)
        else weights_retry_loop att max_retries (retries + 1) s m
    | Option.none =>
        weights_retry_loop att max_retries (retries + 1) success message
  else ((success, message), retries)
termination_by max_retries - retries

/-- `AsyncSubtensor.commit_weights` (async_subtensor.py:2763-2832), from
`retries = 0`, `success = False` and the initial no-attempt message.  The
commit hash computed by `generate_weight_hash` does not influence the
retry policy and is absorbed into `att`. -/
def commit_weights (att : Nat → Option (Bool × String))
    (max_retries : Nat := 5) : (Bool × String) × Nat :=
  weights_retry_loop att max_retries 0 false
    "No attempt made. Perhaps it is too soon to commit weights!"

/-- `AsyncSubtensor.reveal_weights` (async_subtensor.py:2890-2946): the
same loop as `commit_weights` with the reveal extrinsic and the reveal
no-attempt message. -/
def reveal_weights (att : Nat → Option (Bool × String))
    (max_retries : Nat := 5) : (Bool × String) × Nat :=
  weights_retry_loop att max_retries 0 false
    "No attempt made. Perhaps it is too soon to reveal weights!"

/-- The commit-reveal branch loop of `AsyncSubtensor.set_weights`
(async_subtensor.py:3089-3108):
`while bsl > wrl and retries < max_retries and success is False`, calling
`commit_reveal_v3_extrinsic` (no try/except in this branch). -/
def set_weights_cr_loop (env : WeightsCallEnv) (att : Nat → Bool × String)
    (max_retries retries : Nat) (success : Bool) (message : String) :
    (Bool × String) × Nat :=
  if _h : env.bsl retries > env.wrl retries ∧ retries < max_retries
      ∧ success = false then
    let (s, m) := att retries
    set_weights_cr_loop env att max_retries (retries + 1) s m
  else ((success, message), retries)
termination_by max_retries - retries
decreasing_by omega

/-- The legacy branch loop of `AsyncSubtensor.set_weights`
(async_subtensor.py:3113-3138):
`while retries < max_retries and bsl > wrl and success is False`, calling
`set_weights_extrinsic` inside try/except/finally (`att k = none` models a
caught exception at retry `k`). -/
def set_weights_legacy_loop (env : WeightsCallEnv)
    (att : Nat → Option (Bool × String)) (max_retries retries : Nat)
    (success : Bool) (message : String) : (Bool × String) × Nat :=
  if _h : retries < max_retries ∧ env.bsl retries > env.wrl retries
      ∧ success = false then
    match att retries with
    | Option.some (s, m) =>
        set_weights_legacy_loop env att max_retries (retries + 1) s m
    | Option.none =>
        set_weights_legacy_loop env att max_retries (retries + 1) success message
  else ((success, message), retries)
termination_by max_retries - retries
decreasing_by all_goals omega

/-- The inputs of one `set_weights` call (async_subtensor.py:3045-3138):
the resolved uid of the wallet hotkey on the subnet, the
`commit_reveal_enabled` flag, the per-retry chain observations, and the
per-retry extrinsic outcomes of the two branches. -/
structure SetWeightsEnv extends WeightsCallEnv where
  uid : Option Int
  crEnabled : Bool
  crAttempt : Nat → Bool × String
  legacyAttempt : Nat → Option (Bool × String)
  hotkey_ss58 : String
  netuid : Int

/-- `AsyncSubtensor.set_weights` (async_subtensor.py:3045-3138): fail fast
when the hotkey is not registered, then run the commit-reveal loop when
`commit_reveal_enabled(netuid) is True`, else the legacy loop; both start
from `retries = 0`, `success = False` and their no-attempt message.
Returns the source's `(success, message)` paired with the number of
extrinsic attempts performed. -/
def set_weights (env : SetWeightsEnv) (max_retries : Nat := 5) :
    (Bool × String) × Nat :=
  match env.uid with
  | Option.none =>
      ((false, "Hotkey " ++ env.hotkey_ss58 ++ " not registered in subnet "
          ++ toString env.netuid), 0)
  | Option.some _ =>
      if env.crEnabled then
        set_weights_cr_loop env.toWeightsCallEnv env.crAttempt max_retries 0
          false "No attempt made. Perhaps it is too soon to commit weights!"
      else
        set_weights_legacy_loop env.toWeightsCallEnv env.legacyAttempt
          max_retries 0 false
          "No attempt made. Perhaps it is too soon to set weights!"

end AsyncSubtensor

/-! Concrete transports and environments used to instantiate the theorems
below on explicit inputs. -/

/-- A concrete transport: subnet 23 exists, `LastUpdate[23][5] = 1970456`,
head block 3264143, commit-reveal enabled, rate limit 100, every account
entry absent, `CRV3WeightCommits` holding two map entries, and a failing
`payment_queryInfo`. -/
def sampleSubstrate : Substrate where
  last_block_hash := Option.some "0xlast"
  block_hash_of := fun _ => "0xbh"
  chain_head := "0xhead"
  block_number := 3264143
  query := fun _ storage_function params _ _ =>
    if storage_function == "NetworksAdded" then .bool true
    else if storage_function == "LastUpdate" && params == [.int 23] then
      .intList [3264000, 3264001, 3264002, 3264003, 3264004, 1970456]
    else if storage_function == "WeightsSetRateLimit" then .int 100
    else if storage_function == "CommitRevealWeightsEnabled" then .bool true
    else .none
  account_free := fun _ _ => Option.none
  crv3_records := fun _ _ _ => [("key1", [[1, 2], [3]]), ("key2", [[9]])]
  payment_info := fun _ => Option.none
  submit_extrinsic := fun _ _ => .ok ⟨true, ""⟩

/-- A concrete transport on which no subnet exists (`NetworksAdded` is
`None` for every netuid). -/
def sampleSubstrateNoSubnet : Substrate where
  last_block_hash := Option.none
  block_hash_of := fun _ => "0xbh"
  chain_head := "0xhead"
  block_number := 3264143
  query := fun _ _ _ _ _ => .none
  account_free := fun _ _ => Option.none
  crv3_records := fun _ _ _ => []
  payment_info := fun _ => Option.none
  submit_extrinsic := fun _ _ => .ok ⟨true, ""⟩

/-- `sampleSubstrate` observed ten blocks after the last update of uid 5 on
subnet 23, i.e. inside the `WeightsSetRateLimit = 100` window. -/
def sampleRateLimited : Substrate :=
  { sampleSubstrate with block_number := 1970466 }

/-- A concrete `set_weights` call environment sitting inside the rate-limit
window (`blocks_since_last_update = 10 ≤ 100 = weights_rate_limit` at every
check), with the hotkey registered and commit-reveal disabled. -/
def sampleSetWeightsEnv : AsyncSubtensor.SetWeightsEnv where
  bsl := fun _ => 10
  wrl := fun _ => 100
  uid := Option.some 5
  crEnabled := false
  crAttempt := fun _ => (true, "")
  legacyAttempt := fun _ => Option.some (true, "ok")
  hotkey_ss58 := "5Dkz"
  netuid := 23


/-! Shared helper lemmas. -/

open AsyncSubtensor

/-- With an unspecified block reference, `get_hyperparameter` reduces to a
single case split on the truthiness of the `NetworksAdded` entry. -/
theorem get_hyperparameter_default (s : Substrate) (pn : String) (nid : PyValue) :
    get_hyperparameter s pn nid =
      (if (!(s.query "SubtensorModule" "NetworksAdded" [nid] .none false).truthy) = true
       then Except.ok PyValue.none
       else .ok (s.query "SubtensorModule" pn [nid] .none false)) := rfl

/-- With no block reference, `get_balances` reduces to one batched read of
`account_free` at the chain head, folded into the result dict. -/
theorem get_balances_default (s : Substrate) (addresses : List String) :
    get_balances s addresses =
      .ok ((addresses.map (fun a => (a, s.account_free a (.str s.chain_head)))).foldl
        (fun results item => dictUpsert results item.1 (Balance.init (item.2.getD 0)))
        []) := rfl

/-- When every value inserted for a key is produced by the same function of
that key, `dictUpsert` keeps the pair for the upserted key reachable. -/
theorem dictUpsert_mem (d : List (String × Balance)) (k : String)
    (f : String → Balance) (a : String) (h : (a, f a) ∈ d ∨ a = k) :
    (a, f a) ∈ dictUpsert d k (f k) := by
  unfold dictUpsert
  by_cases hc : d.any (fun p => p.1 == k)
  · rw [if_pos hc]
    rcases h with h1 | h2
    · refine List.mem_map.mpr ⟨(a, f a), h1, ?_⟩
      by_cases hak : a = k
      · subst hak; simp
      · simp [hak]
    · subst h2
      rcases List.any_eq_true.mp hc with ⟨p, hp, hpk⟩
      refine List.mem_map.mpr ⟨p, hp, ?_⟩
      simp [hpk]
  · rw [if_neg hc]
    rcases h with h1 | h2
    · exact List.mem_append_left _ h1
    · subst h2; simp

/-- `dictUpsert` preserves the invariant that every stored value is the
image of its key under `f`. -/
theorem dictUpsert_values (d : List (String × Balance)) (k : String)
    (f : String → Balance) (hd : ∀ p ∈ d, p.2 = f p.1) :
    ∀ p ∈ dictUpsert d k (f k), p.2 = f p.1 := by
  unfold dictUpsert
  by_cases hc : d.any (fun p => p.1 == k)
  · rw [if_pos hc]
    intro p hp
    rcases List.mem_map.mp hp with ⟨q, hq, hqp⟩
    by_cases hqk : q.1 == k
    · rw [if_pos hqk] at hqp
      rw [← hqp]
    · rw [if_neg hqk] at hqp
      rw [← hqp]
      exact hd q hq
  · rw [if_neg hc]
    intro p hp
    rcases List.mem_append.mp hp with h1 | h2
    · exact hd p h1
    · rcases List.mem_singleton.mp h2 with rfl
      rfl

/-- Folding `dictUpsert` over a list of keys makes every listed key
reachable with its `f`-image as value. -/
theorem fold_upsert_mem (f : String → Balance) :
    ∀ (addrs : List String) (acc : List (String × Balance)) (a : String),
      ((a, f a) ∈ acc ∨ a ∈ addrs) →
      (a, f a) ∈ addrs.foldl (fun d b => dictUpsert d b (f b)) acc := by
  intro addrs
  induction addrs with
  | nil =>
      intro acc a h
      rcases h with h1 | h2
      · simpa using h1
      · simp at h2
  | cons b rest ih =>
      intro acc a h
      rw [List.foldl_cons]
      refine ih (dictUpsert acc b (f b)) a ?_
      rcases h with h1 | h2
      · exact Or.inl (dictUpsert_mem acc b f a (Or.inl h1))
      · rcases List.mem_cons.mp h2 with rfl | hrest
        · exact Or.inl (dictUpsert_mem acc a f a (Or.inr rfl))
        · exact Or.inr hrest

/-- Folding `dictUpsert` preserves the stored-value invariant. -/
theorem fold_upsert_values (f : String → Balance) :
    ∀ (addrs : List String) (acc : List (String × Balance)),
      (∀ p ∈ acc, p.2 = f p.1) →
      ∀ p ∈ addrs.foldl (fun d b => dictUpsert d b (f b)) acc, p.2 = f p.1 := by
  intro addrs
  induction addrs with
  | nil =>
      intro acc hacc p hp
      simp at hp
      exact hacc p hp
  | cons b rest ih =>
      intro acc hacc p hp
      rw [List.foldl_cons] at hp
      exact ih (dictUpsert acc b (f b)) (dictUpsert_values acc b f hacc) p hp

/-- In a dict whose values are the `f`-images of their keys, lookup of a
reachable key returns its `f`-image. -/
theorem lookup_of_mem_values (f : String → Balance) :
    ∀ (d : List (String × Balance)) (a : String),
      (∀ p ∈ d, p.2 = f p.1) → (a, f a) ∈ d → d.lookup a = Option.some (f a) := by
  intro d
  induction d with
  | nil =>
      intro a _ hm
      simp at hm
  | cons p t ih =>
      intro a hv hm
      obtain ⟨k, v⟩ := p
      by_cases hak : a == k
      · simp only [List.lookup, hak]
        have hvk : v = f k := hv (k, v) (List.mem_cons_self _ _)
        rw [hvk, beq_iff_eq.mp hak]
      · have hak2 : (a == k) = false := by simpa using hak
        simp only [List.lookup, hak2]
        rcases List.mem_cons.mp hm with heq | hmem
        · exact absurd (congrArg Prod.fst heq) (by simpa using hak)
        · exact ih a (fun q hq => hv q (List.mem_cons_of_mem _ hq)) hmem

/-- The commit/reveal retry loop performs at most `max_retries` attempts:
its final retry counter never exceeds `max_retries`. -/
theorem weights_retry_loop_le (fuel : Nat) :
    ∀ (att : Nat → Option (Bool × String)) (max_retries retries : Nat)
      (s : Bool) (m : String), max_retries - retries ≤ fuel →
      retries ≤ max_retries →
      (weights_retry_loop att max_retries retries s m).2 ≤ max_retries := by
  induction fuel with
  | zero =>
      intro att max_retries retries s m hf hr
      rw [weights_retry_loop.eq_def, dif_neg (by omega)]
      exact hr
  | succ n ih =>
      intro att max_retries retries s m hf hr
      by_cases hc : retries < max_retries
      · rw [weights_retry_loop.eq_def, dif_pos hc]
        cases hatt : att retries with
        | none => exact ih att max_retries (retries + 1) s m (by omega) (by omega)
        | some p =>
            obtain ⟨ps, pm⟩ := p
            cases hps : ps
            · exact ih att max_retries (retries + 1) false pm (by omega) (by omega)
            · exact hc
      · rw [weights_retry_loop.eq_def, dif_neg hc]
        exact hr

/-- The commit-reveal branch of `set_weights` never decreases its retry
counter, never exceeds `max_retries`, and iterates at a retry count `k`
only when the rate-limit gate `bsl k > wrl k` held at that check. -/
theorem set_weights_cr_loop_spec (fuel : Nat) :
    ∀ (env : WeightsCallEnv) (att : Nat → Bool × String)
      (max_retries retries : Nat) (s : Bool) (m : String),
      max_retries - retries ≤ fuel → retries ≤ max_retries →
      retries ≤ (set_weights_cr_loop env att max_retries retries s m).2
      ∧ (set_weights_cr_loop env att max_retries retries s m).2 ≤ max_retries
      ∧ ∀ k, retries ≤ k →
          k < (set_weights_cr_loop env att max_retries retries s m).2 →
          env.bsl k > env.wrl k := by
  induction fuel with
  | zero =>
      intro env att max_retries retries s m hf hr
      rw [set_weights_cr_loop.eq_def, dif_neg (by omega)]
      exact ⟨le_refl _, hr, fun k hk1 hk2 => absurd hk2 (by omega)⟩
  | succ n ih =>
      intro env att max_retries retries s m hf hr
      by_cases hc : env.bsl retries > env.wrl retries ∧ retries < max_retries
          ∧ s = false
      · rw [set_weights_cr_loop.eq_def, dif_pos hc]
        have hrec := ih env att max_retries (retries + 1) (att retries).1
          (att retries).2 (by omega) (by omega)
        refine ⟨le_trans (Nat.le_succ retries) hrec.1, hrec.2.1,
          fun k hk1 hk2 => ?_⟩
        by_cases hkr : k = retries
        · subst hkr; exact hc.1
        · exact hrec.2.2 k (by omega) hk2
      · rw [set_weights_cr_loop.eq_def, dif_neg hc]
        exact ⟨le_refl _, hr, fun k hk1 hk2 => absurd hk2 (by omega)⟩

/-- The legacy branch of `set_weights` satisfies the same bound and
rate-limit-gate discipline as the commit-reveal branch. -/
theorem set_weights_legacy_loop_spec (fuel : Nat) :
    ∀ (env : WeightsCallEnv) (att : Nat → Option (Bool × String))
      (max_retries retries : Nat) (s : Bool) (m : String),
      max_retries - retries ≤ fuel → retries ≤ max_retries →
      retries ≤ (set_weights_legacy_loop env att max_retries retries s m).2
      ∧ (set_weights_legacy_loop env att max_retries retries s m).2 ≤ max_retries
      ∧ ∀ k, retries ≤ k →
          k < (set_weights_legacy_loop env att max_retries retries s m).2 →
          env.bsl k > env.wrl k := by
  induction fuel with
  | zero =>
      intro env att max_retries retries s m hf hr
      rw [set_weights_legacy_loop.eq_def, dif_neg (by omega)]
      exact ⟨le_refl _, hr, fun k hk1 hk2 => absurd hk2 (by omega)⟩
  | succ n ih =>
      intro env att max_retries retries s m hf hr
      by_cases hc : retries < max_retries ∧ env.bsl retries > env.wrl retries
          ∧ s = false
      · rw [set_weights_legacy_loop.eq_def, dif_pos hc]
        cases hatt : att retries with
        | none =>
            have hrec := ih env att max_retries (retries + 1) s m (by omega) (by omega)
            refine ⟨le_trans (Nat.le_succ retries) hrec.1, hrec.2.1,
              fun k hk1 hk2 => ?_⟩
            by_cases hkr : k = retries
            · subst hkr; exact hc.2.1
            · exact hrec.2.2 k (by omega) hk2
        | some p =>
            obtain ⟨ps, pm⟩ := p
            have hrec := ih env att max_retries (retries + 1) ps pm (by omega) (by omega)
            refine ⟨le_trans (Nat.le_succ retries) hrec.1, hrec.2.1,
              fun k hk1 hk2 => ?_⟩
            by_cases hkr : k = retries
            · subst hkr; exact hc.2.1
            · exact hrec.2.2 k (by omega) hk2
      · rw [set_weights_legacy_loop.eq_def, dif_neg hc]
        exact ⟨le_refl _, hr, fun k hk1 hk2 => absurd hk2 (by omega)⟩

/-- If the rate-limit gate fails at the first check, the commit-reveal
branch of `set_weights` exits with zero attempts and the initial message. -/
theorem set_weights_cr_loop_no_attempt (env : WeightsCallEnv)
    (att : Nat → Bool × String) (max_retries : Nat) (m : String)
    (h : ¬ env.bsl 0 > env.wrl 0) :
    set_weights_cr_loop env att max_retries 0 false m = ((false, m), 0) := by
  rw [set_weights_cr_loop.eq_def, dif_neg (fun hc => h hc.1)]

/-- If the rate-limit gate fails at the first check, the legacy branch of
`set_weights` exits with zero attempts and the initial message. -/
theorem set_weights_legacy_loop_no_attempt (env : WeightsCallEnv)
    (att : Nat → Option (Bool × String)) (max_retries : Nat) (m : String)
    (h : ¬ env.bsl 0 > env.wrl 0) :
    set_weights_legacy_loop env att max_retries 0 false m = ((false, m), 0) := by
  rw [set_weights_legacy_loop.eq_def, dif_neg (fun hc => h hc.2.1)]


/-! The claims. -/

/-- Claim C1: for every combination of the three block-reference
parameters, `determine_block_hash` raises a `ValueError` when more than
one of `block`, `block_hash`, `reuse_block` is truthy (for every transport,
so before any I/O), returns the given `block_hash` unchanged when
`block_hash` is truthy, and returns `None` when all three are falsy. -/
theorem determine_block_hash_tri_param (s : Substrate)
    (block block_hash : PyValue) (reuse_block : Bool) :
    ((cond block.truthy 1 0) + (cond block_hash.truthy 1 0)
        + (cond reuse_block 1 0) > 1 →
      determine_block_hash s block block_hash reuse_block =
        .error "Only one of `block`, `block_hash`, or `reuse_block` can be specified.")
    ∧ (block_hash.truthy = true → block.truthy = false → reuse_block = false →
      determine_block_hash s block block_hash reuse_block = .ok block_hash)
    ∧ (block.truthy = false → block_hash.truthy = false → reuse_block = false →
      determine_block_hash s block block_hash reuse_block = .ok .none) := by
  refine ⟨fun h => ?_, fun h1 h2 h3 => ?_, fun h1 h2 h3 => ?_⟩
  · simp [determine_block_hash, h]
  · simp [determine_block_hash, h1, h2, h3]
  · simp [determine_block_hash, h1, h2, h3]

/-- Witness for C1 at concrete inputs: two truthy references fail, a lone
hash is returned unchanged, and all-falsy yields `None`. -/
theorem determine_block_hash_tri_param_witness :
    determine_block_hash sampleSubstrate (.int 5) (.str "0xabc") false =
      .error "Only one of `block`, `block_hash`, or `reuse_block` can be specified."
    ∧ determine_block_hash sampleSubstrate .none (.str "0xabc") false =
        .ok (.str "0xabc")
    ∧ determine_block_hash sampleSubstrate .none .none false = .ok .none :=
  ⟨(determine_block_hash_tri_param sampleSubstrate (.int 5) (.str "0xabc") false).1
      (by decide),
   (determine_block_hash_tri_param sampleSubstrate .none (.str "0xabc") false).2.1
      (by decide) (by decide) rfl,
   (determine_block_hash_tri_param sampleSubstrate .none .none false).2.2
      (by decide) (by decide) rfl⟩

/-- Claim C2: `Balance.from_rao(b)` constructs a `Balance` whose `rao`
field equals `b`, so `Balance.from_rao(b.rao).rao == b.rao` for every
`Balance` with an integer `rao` field. -/
theorem balance_from_rao_round_trip :
    (∀ n : Int, (Balance.from_rao n).rao = n)
    ∧ ∀ b : Balance, (Balance.from_rao b.rao).rao = b.rao :=
  ⟨fun _ => rfl, fun _ => rfl⟩

/-- Counterexample to Claim C3: `commit_weights` (and `reveal_weights`)
performs `max_retries = 5` attempts even in a chain state where
`blocks_since_last_update(23, 5) = 10` is not greater than
`weights_rate_limit(23) = 100`, whereas the claim requires that no attempt
be made and no retry happen in that state: their loops never consult the
rate limit. -/
theorem commit_weights_ignores_rate_limit :
    blocks_since_last_update sampleRateLimited 23 5 = .ok (Option.some 10)
    ∧ weights_rate_limit sampleRateLimited 23 = .ok (Option.some 100)
    ∧ ¬ ((10 : Int) > 100)
    ∧ (commit_weights (fun _ => Option.some (false, "transaction failed")) 5).2 = 5
    ∧ (reveal_weights (fun _ => Option.some (false, "transaction failed")) 5).2 = 5 := by
  refine ⟨rfl, rfl, by decide, ?_, ?_⟩
  · simp [commit_weights, weights_retry_loop]
  · simp [reveal_weights, weights_retry_loop]

/-- Claim C3 as amended: `set_weights` makes at most `max_retries`
attempts, makes an attempt at retry count `k` only when
`blocks_since_last_update > weights_rate_limit` held at that check, and
when the gate fails at the first check (and the hotkey is registered)
returns `(False, no-attempt message)` without any attempt; `commit_weights`
and `reveal_weights` are also bounded by `max_retries` but do not consult
the rate limit at all — they retry on failure unconditionally. -/
theorem set_weights_retry_policy (env : SetWeightsEnv)
    (att : Nat → Option (Bool × String)) (max_retries : Nat) :
    (set_weights env max_retries).2 ≤ max_retries
    ∧ (∀ k, k < (set_weights env max_retries).2 → env.bsl k > env.wrl k)
    ∧ (∀ u : Int, env.uid = Option.some u → ¬ env.bsl 0 > env.wrl 0 →
        set_weights env max_retries =
          ((false,
            if env.crEnabled then
              "No attempt made. Perhaps it is too soon to commit weights!"
            else
              "No attempt made. Perhaps it is too soon to set weights!"), 0))
    ∧ (commit_weights att max_retries).2 ≤ max_retries
    ∧ (reveal_weights att max_retries).2 ≤ max_retries := by
  refine ⟨?_, ?_, ?_, ?_, ?_⟩
  · cases henv : env.uid with
    | none => simp [set_weights, henv]
    | some u =>
        by_cases hcr : env.crEnabled
        · simp only [set_weights, henv, hcr, if_true]
          exact (set_weights_cr_loop_spec max_retries env.toWeightsCallEnv
            env.crAttempt max_retries 0 false _ (by omega) (by omega)).2.1
        · simp only [set_weights, henv, hcr, if_false]
          exact (set_weights_legacy_loop_spec max_retries env.toWeightsCallEnv
            env.legacyAttempt max_retries 0 false _ (by omega) (by omega)).2.1
  · intro k hk
    cases henv : env.uid with
    | none =>
        simp only [set_weights, henv] at hk
        simp at hk
    | some u =>
        by_cases hcr : env.crEnabled
        · simp only [set_weights, henv, hcr, if_true] at hk
          exact (set_weights_cr_loop_spec max_retries env.toWeightsCallEnv
            env.crAttempt max_retries 0 false _ (by omega) (by omega)).2.2 k
            (Nat.zero_le k) hk
        · simp only [set_weights, henv, hcr, if_false] at hk
          exact (set_weights_legacy_loop_spec max_retries env.toWeightsCallEnv
            env.legacyAttempt max_retries 0 false _ (by omega) (by omega)).2.2 k
            (Nat.zero_le k) hk
  · intro u hu h
    by_cases hcr : env.crEnabled
    · simp only [set_weights, hu, hcr, if_true]
      exact set_weights_cr_loop_no_attempt env.toWeightsCallEnv env.crAttempt
        max_retries _ h
    · simp only [set_weights, hu, hcr, if_false]
      exact set_weights_legacy_loop_no_attempt env.toWeightsCallEnv
        env.legacyAttempt max_retries _ h
  · exact weights_retry_loop_le max_retries att max_retries 0 false
      "No attempt made. Perhaps it is too soon to commit weights!"
      (by omega) (by omega)
  · exact weights_retry_loop_le max_retries att max_retries 0 false
      "No attempt made. Perhaps it is too soon to reveal weights!"
      (by omega) (by omega)

/-- Witness for the amended C3: in a concrete environment inside the
rate-limit window, `set_weights` makes zero attempts and returns the
no-attempt failure. -/
theorem set_weights_retry_policy_witness :
    set_weights sampleSetWeightsEnv 5 =
      ((false, "No attempt made. Perhaps it is too soon to set weights!"), 0)
    ∧ (set_weights sampleSetWeightsEnv 5).2 ≤ 5 :=
  ⟨(set_weights_retry_policy sampleSetWeightsEnv (fun _ => Option.none) 5).2.2.1
      5 rfl (by decide),
   (set_weights_retry_policy sampleSetWeightsEnv (fun _ => Option.none) 5).1⟩

/-- Counterexample to Claim C4: with `reuse_block` truthy (and the other
two falsy), `determine_block_hash` returns `None`, not the transport's
`last_block_hash` (`some "0xlast"` here). -/
theorem determine_block_hash_reuse_counterexample :
    sampleSubstrate.last_block_hash = Option.some "0xlast"
    ∧ determine_block_hash sampleSubstrate .none .none true = .ok .none
    ∧ determine_block_hash sampleSubstrate .none .none true ≠ .ok (.str "0xlast") :=
  ⟨rfl, rfl, by simp [determine_block_hash, PyValue.truthy]⟩

/-- Claim C4 as amended: with `reuse_block` truthy and `block`,
`block_hash` falsy, `determine_block_hash` returns `None`; the reuse flag
is honoured downstream instead — e.g. `get_balances` with `reuse_block`
reads the account state at `substrate.last_block_hash` directly. -/
theorem determine_block_hash_reuse_returns_none :
    (∀ (s : Substrate) (block block_hash : PyValue),
      block.truthy = false → block_hash.truthy = false →
      determine_block_hash s block block_hash true = .ok .none)
    ∧ ∀ (s : Substrate) (a : String),
      get_balances s [a] .none .none true =
        .ok [(a, Balance.init ((s.account_free a (pyOfOptStr s.last_block_hash)).getD 0))] := by
  constructor
  · intro s block block_hash h1 h2
    simp [determine_block_hash, h1, h2]
  · intro s a
    simp [get_balances, dictUpsert]

/-- Witness for the amended C4 at a concrete transport. -/
theorem determine_block_hash_reuse_returns_none_witness :
    determine_block_hash sampleSubstrate .none .none true = .ok .none
    ∧ get_balances sampleSubstrate ["5Dkz"] .none .none true =
        .ok [("5Dkz", Balance.init 0)] :=
  ⟨determine_block_hash_reuse_returns_none.1 sampleSubstrate .none .none rfl rfl,
   by have h := determine_block_hash_reuse_returns_none.2 sampleSubstrate "5Dkz"
      simpa [sampleSubstrate] using h⟩

/-- Claim C5: with `current_block() = 3264143` and `LastUpdate[23][5] =
1970456` on an existing subnet 23, `blocks_since_last_update(23, 5)`
returns `3264143 - 1970456 = 1293687`; and for every netuid whose subnet
does not exist it returns `None`. -/
theorem blocks_since_last_update_literal :
    (∀ (s : Substrate) (lu : List Int),
      (s.query "SubtensorModule" "NetworksAdded" [.int 23] .none false).truthy = true →
      s.query "SubtensorModule" "LastUpdate" [.int 23] .none false = .intList lu →
      lu.get? 5 = Option.some 1970456 →
      s.block_number = 3264143 →
      blocks_since_last_update s 23 5 = .ok (Option.some 1293687))
    ∧ ∀ (s : Substrate) (netuid uid : Int),
      (s.query "SubtensorModule" "NetworksAdded" [.int netuid] .none false).truthy = false →
      blocks_since_last_update s netuid uid = .ok Option.none := by
  constructor
  · intro s lu h1 h2 h3 h4
    have hg := get_hyperparameter_default s "LastUpdate" (.int 23)
    rw [h1, h2] at hg
    show Bind.bind (get_hyperparameter s "LastUpdate" (.int 23) .none .none false)
      (fun call =>
        match call with
        | .none => Except.ok Option.none
        | c => Bind.bind (c.getItem 5) (fun item =>
            Bind.bind item.toInt (fun v =>
              Except.ok (Option.some (get_current_block s - v))))) = _
    rw [hg]
    have hlen : 5 < lu.length := by
      rcases List.get?_eq_some.mp h3 with ⟨hl, _⟩
      exact hl
    have hval : lu.get ⟨5, hlen⟩ = 1970456 := by
      rcases List.get?_eq_some.mp h3 with ⟨hl, hv⟩
      exact hv
    rw [List.get_eq_getElem] at hval
    simp [Bind.bind, Except.bind, PyValue.getItem, PyValue.toInt, hlen, hval,
      get_current_block, h4]
  · intro s netuid uid h
    have hg := get_hyperparameter_default s "LastUpdate" (.int netuid)
    rw [h] at hg
    show Bind.bind (get_hyperparameter s "LastUpdate" (.int netuid) .none .none false)
      (fun call =>
        match call with
        | .none => Except.ok Option.none
        | c => Bind.bind (c.getItem uid) (fun item =>
            Bind.bind item.toInt (fun v =>
              Except.ok (Option.some (get_current_block s - v))))) = _
    rw [hg]
    simp [Bind.bind, Except.bind]

/-- Witness for C5 on concrete transports: the literal subtraction on
subnet 23, and `None` on a transport with no subnets. -/
theorem blocks_since_last_update_literal_witness :
    blocks_since_last_update sampleSubstrate 23 5 = .ok (Option.some 1293687)
    ∧ blocks_since_last_update sampleSubstrateNoSubnet 23 5 = .ok Option.none :=
  ⟨blocks_since_last_update_literal.1 sampleSubstrate
      [3264000, 3264001, 3264002, 3264003, 3264004, 1970456] rfl rfl rfl rfl,
   blocks_since_last_update_literal.2 sampleSubstrateNoSubnet 23 5 rfl⟩

/-- Claim C6: when the `System.Account` entry of an address is absent
(the storage query returns null), `get_balance` returns `Balance(0)`
rather than an error, and `get_balances` maps every absent address to
`Balance(0)`. -/
theorem get_balance_absent_address_zero (s : Substrate) :
    (∀ address : String,
      s.account_free address (.str s.chain_head) = Option.none →
      get_balance s address = .ok (Balance.init 0))
    ∧ ∀ (addresses : List String) (address : String) (d : List (String × Balance)),
      address ∈ addresses →
      s.account_free address (.str s.chain_head) = Option.none →
      get_balances s addresses = .ok d →
      d.lookup address = Option.some (Balance.init 0) := by
  constructor
  · intro address habs
    show Except.ok (Balance.init
        ((s.account_free address (.str s.chain_head)).getD 0)) = _
    rw [habs]
    rfl
  · intro addresses address d hmem habs hd
    rw [get_balances_default] at hd
    rw [List.foldl_map] at hd
    set f : String → Balance :=
      fun a => Balance.init ((s.account_free a (.str s.chain_head)).getD 0) with hf
    have hfold : d = addresses.foldl (fun acc a => dictUpsert acc a (f a)) [] := by
      have := Except.ok.inj hd
      rw [← this]
    have hvals : ∀ p ∈ d, p.2 = f p.1 := by
      rw [hfold]
      exact fold_upsert_values f addresses [] (by simp)
    have hmem2 : (address, f address) ∈ d := by
      rw [hfold]
      exact fold_upsert_mem f addresses [] address (Or.inr hmem)
    have hl := lookup_of_mem_values f d address hvals hmem2
    rw [hl, hf]
    simp [habs]

/-- Witness for C6: on a transport with every account absent, the single
lookup returns `Balance(0)`. -/
theorem get_balance_absent_address_zero_witness :
    get_balance sampleSubstrate "5Dkz" = .ok (Balance.init 0)
    ∧ List.lookup "5Dkz" [("5Dkz", Balance.init 0)] = Option.some (Balance.init 0) :=
  ⟨(get_balance_absent_address_zero sampleSubstrate).1 "5Dkz" rfl,
   (get_balance_absent_address_zero sampleSubstrate).2 ["5Dkz"] "5Dkz"
     [("5Dkz", Balance.init 0)] (by simp) rfl rfl⟩

/-- Claim C7: `get_transfer_fee` called with the float 1.5 tao composes a
`Balances.transfer_allow_death` call whose value argument is
1_500_000_000 rao, returns `Balance.from_rao(partialFee)` when
`payment_queryInfo` answers, and the fallback `Balance.from_rao(20_000_000)`
when the RPC fails. -/
theorem get_transfer_fee_float_and_fallback (s : Substrate) (dest : String) :
    (get_transfer_fee s dest (.float (3 / 2))).2 =
      Option.some ⟨"Balances", "transfer_allow_death", dest, "1500000000"⟩
    ∧ (∀ pf : Int,
        s.payment_info ⟨"Balances", "transfer_allow_death", dest, "1500000000"⟩ =
          Option.some pf →
        (get_transfer_fee s dest (.float (3 / 2))).1 = Balance.from_rao pf)
    ∧ (s.payment_info ⟨"Balances", "transfer_allow_death", dest, "1500000000"⟩ =
          Option.none →
        (get_transfer_fee s dest (.float (3 / 2))).1 = Balance.from_rao 20000000) := by
  have hq : ((3 : Rat) / 2 * 10 ^ 9) = (1500000000 : Rat) := by norm_num
  have hr : (Balance.from_tao (3 / 2)).rao = 1500000000 := by
    simp only [Balance.from_tao, Balance.init, Balance.set_unit, hq, pyInt]
    decide
  have hs : toString (Balance.from_tao (3 / 2)).rao = "1500000000" := by
    rw [hr]; decide
  refine ⟨?_, fun pf hpf => ?_, fun hpf => ?_⟩
  · simp [get_transfer_fee, hs]
  · simp [get_transfer_fee, hs, hpf]
  · simp [get_transfer_fee, hs, hpf]

/-- Witness for C7 on a transport whose `payment_queryInfo` fails: the
composed call carries value 1_500_000_000 and the fee is the fallback. -/
theorem get_transfer_fee_float_and_fallback_witness :
    (get_transfer_fee sampleSubstrate "5Dkz" (.float (3 / 2))).2 =
      Option.some ⟨"Balances", "transfer_allow_death", "5Dkz", "1500000000"⟩
    ∧ (get_transfer_fee sampleSubstrate "5Dkz" (.float (3 / 2))).1 =
        Balance.from_rao 20000000 :=
  ⟨(get_transfer_fee_float_and_fallback sampleSubstrate "5Dkz").1,
   (get_transfer_fee_float_and_fallback sampleSubstrate "5Dkz").2.2 rfl⟩

/-- Claim C8: for every `sign_with` outside coldkey/hotkey/coldkeypub,
`sign_and_send_extrinsic` raises `AttributeError` with an empty substrate
operation log — synchronously, before creating, signing, or submitting
any extrinsic. -/
theorem sign_and_send_invalid_sign_with (s : Substrate) (sign_with : String)
    (wait_for_inclusion wait_for_finalization : Bool)
    (h : sign_with ∉ ["coldkey", "hotkey", "coldkeypub"]) :
    sign_and_send_extrinsic s sign_with wait_for_inclusion wait_for_finalization =
      (.error ("AttributeError: sign_with must be either coldkey, hotkey or coldkeypub, not "
          ++ sign_with), []) := by
  simp [sign_and_send_extrinsic, h]

/-- Witness for C8 at `sign_with = "invalid"`. -/
theorem sign_and_send_invalid_sign_with_witness :
    sign_and_send_extrinsic sampleSubstrate "invalid" true false =
      (.error ("AttributeError: sign_with must be either coldkey, hotkey or coldkeypub, not "
          ++ "invalid"), []) :=
  sign_and_send_invalid_sign_with sampleSubstrate "invalid" true false (by decide)

/-- Claim C9: `get_current_weight_commit_info` decodes and returns only the
commits of the first `CRV3WeightCommits` map entry, discarding all further
entries, and returns the empty list when the map has no records. -/
theorem weight_commit_info_first_record_only (s : Substrate) (netuid : Int) :
    (s.crv3_records netuid .none false = [] →
      get_current_weight_commit_info s netuid = .ok [])
    ∧ ∀ (r : String × List (List Nat)) (rest : List (String × List (List Nat))),
      s.crv3_records netuid .none false = r :: rest →
      get_current_weight_commit_info s netuid =
        .ok (r.2.map WeightCommitInfo.from_vec_u8) := by
  constructor
  · intro h
    show Except.ok (List.map WeightCommitInfo.from_vec_u8
        (match s.crv3_records netuid .none false with
         | [] => []
         | r :: _ => r.2)) = _
    rw [h]
    rfl
  · intro r rest h
    show Except.ok (List.map WeightCommitInfo.from_vec_u8
        (match s.crv3_records netuid .none false with
         | [] => []
         | r :: _ => r.2)) = _
    rw [h]

/-- Witness for C9: on a transport whose map has two entries, only the
first entry's two commits are decoded; the second entry is dropped. -/
theorem weight_commit_info_first_record_only_witness :
    get_current_weight_commit_info sampleSubstrate 23 =
      .ok [⟨[1, 2]⟩, ⟨[3]⟩] :=
  (weight_commit_info_first_record_only sampleSubstrate 23).2
    ("key1", [[1, 2], [3]]) [("key2", [[9]])] rfl

/-- Claim C10: `commit_reveal_enabled` always returns a strict boolean,
never `None` or an error: `True` exactly when the subnet exists and its
`CommitRevealWeightsEnabled` hyperparameter is the value `True`, and
`False` in every other case, including a missing subnet. -/
theorem commit_reveal_enabled_strict_bool (s : Substrate) (netuid : Int) :
    commit_reveal_enabled s netuid =
      .ok ((s.query "SubtensorModule" "NetworksAdded" [.int netuid] .none false).truthy
        && (s.query "SubtensorModule" "CommitRevealWeightsEnabled" [.int netuid]
              .none false == .bool true)) := by
  have hg := get_hyperparameter_default s "CommitRevealWeightsEnabled" (.int netuid)
  show Bind.bind (get_hyperparameter s "CommitRevealWeightsEnabled" (.int netuid)
      .none .none false) (fun call => Except.ok (call == PyValue.bool true)) = _
  rw [hg]
  cases hb : (s.query "SubtensorModule" "NetworksAdded" [.int netuid] .none false).truthy
  · simp [hb, Bind.bind, Except.bind,
      show (PyValue.none == PyValue.bool true) = false from rfl]
  · simp [hb, Bind.bind, Except.bind]

end Bittensor
